import Mathlib

/-!
# Verification of the BusPirate_I2C_EEPROM scripts

A shallow embedding, in Lean 4, of the five Python scripts of the
`BusPirate_I2C_EEPROM` repository:

* `BusPirate_I2C_EEPROM_Wipe.py`  — wipe an EEPROM with a repeating pattern,
  then verify by reading back;
* `BusPirate_I2C_EEPROM_Dump.py`  — dump EEPROM contents to a file;
* `BusPirate_I2C_EEPROM_Flash.py` — flash a file's contents to an EEPROM;
* `Blank_Dump_Creator.py`         — create a pattern-filled blank dump file;
* `BusPirate_I2C_EEPROM_Discovery.py` — scan the I2C bus for devices.

Python integers are embedded as `Nat` (all the values involved are
non-negative), Python `bytes`/`list` values as `List Nat`, and the Bus
Pirate / filesystem side effects as explicit transcripts: each loop returns
the list of transfers it issues (or of chunks it writes).  Fallible code
returns `Except Err`; `while` loops are embedded with an explicit fuel
argument, `none` meaning the fuel was exhausted before the loop condition
became false (which is how non-termination is made observable).  The
hardware responses (`write_then_read` return values) are an oracle
parameter `rx : Nat → Nat → List Nat` giving the bytes returned for a
sequential read of a given length at a given EEPROM address.
-/

/-- The Python exceptions the embedded scripts can raise.  `valueErrorAddress`
is the `ValueError` for an I2C address above `0x7F`, `valueErrorSize` the
`ValueError` for `bytesPerPage * totalPages > 0xFFFF`, `indexError` the
`IndexError` of the flash script's file-size check, `nameError` a reference
to a variable that was never assigned, and `zeroDivisionError` a modulo by
zero. -/
inductive Err where
  | valueErrorAddress
  | valueErrorSize
  | indexError
  | nameError
  | zeroDivisionError
deriving Repr, DecidableEq

/-- Python's slice `l[a:b]` for non-negative bounds: the elements with index
`a ≤ i < b`, clamped to the length of the list. -/
def pySlice (l : List Nat) (a b : Nat) : List Nat :=
  (l.take b).drop a

/-- The two memory-address bytes of the dump script's sequential-read set-up
transfer (`BusPirate_I2C_EEPROM_Dump.py` line 112):
`[(byteAddress >> 8) & 0x7F, byteAddress & 0xFF]`.  Note the `0x7F` mask on
the high byte. -/
def dumpAddrBytes (a : Nat) : List Nat :=
  [(a >>> 8) &&& 0x7F, a &&& 0xFF]

/-- The two memory-address bytes of the flash script's page-write transfer
(`BusPirate_I2C_EEPROM_Flash.py` line 110):
`[(byteAddress >> 8) & 0xFF, byteAddress & 0xFF]`. -/
def flashAddrBytes (a : Nat) : List Nat :=
  [(a >>> 8) &&& 0xFF, a &&& 0xFF]

/-- The two memory-address bytes of the wipe script's page-write transfer
(`BusPirate_I2C_EEPROM_Wipe.py` line 122) and of its verify loop's
sequential-read set-up transfer (line 182):
`[(byteAddress >> 8) & 0xFF, byteAddress & 0xFF]`. -/
def wipeAddrBytes (a : Nat) : List Nat :=
  [(a >>> 8) &&& 0xFF, a &&& 0xFF]

/-- `WRITE_ADDRESS = (address << 1) & 0b11111110` (all three Bus Pirate
scripts compute it this way). -/
def writeAddressOf (address : Nat) : Nat :=
  (address <<< 1) &&& 0xFE

/-- `READ_ADDRESS = (address << 1) | 0b00000001`. -/
def readAddressOf (address : Nat) : Nat :=
  (address <<< 1) ||| 0x01

/-- Fuel-indexed unfolding of the wipe script's normalisation loop
`while wiperStringStart > wiperStringBytes: wiperStringStart -= wiperStringBytes`
(`BusPirate_I2C_EEPROM_Wipe.py` lines 109–110).  Each pass subtracts
`L ≥ 1`, so the loop runs at most `s` times; `normStart` supplies that much
fuel.  (The call sites guarantee `L ≠ 0`: they sit under the
`bytesToWrite > wiperStringBytes` branch, after the `% L` has already
succeeded.) -/
def normStartAux : Nat → Nat → Nat → Nat
  | 0, s, _ => s
  | fuel + 1, s, L => if L < s then normStartAux fuel (s - L) L else s

/-- The wipe script's reduction of `wiperStringStart` back into the range of
the wiper string (lines 109–110).  For `L = 0` the Python loop would not
terminate for `s > 0`, but that situation is unreachable (see
`normStartAux`); the embedding returns `s` there. -/
def normStart (s L : Nat) : Nat :=
  if L = 0 then s else normStartAux s s L

/-- The loop-carried state of the wipe script's wipe loop (and, with the
same shape, of its verify loop): the current `byteAddress`, the pattern
offset `wiperStringStart` carried across pages, and the last value assigned
to the page-data variable (`wiperData` resp. `verifyData`) — `none` when
that variable has not been assigned yet, so that referencing it raises
`NameError` as in Python. -/
structure WipeState where
  byteAddress : Nat
  wiperStringStart : Nat
  pageData : Option (List Nat)
deriving Repr, DecidableEq

/-- One iteration of the data-generation part of the wipe loop
(`BusPirate_I2C_EEPROM_Wipe.py` lines 88–119 together with the address
increment of line 128).  `p` is `wiperString` (the pattern bytes), `tb` is
`totalBytes`.  Returns the page data `wiperData` and the updated state.

Faithfulness notes:
* `bytesToWrite % wiperStringBytes` raises `ZeroDivisionError` for an empty
  pattern, hence the `p.length = 0` branch;
* in the `else` branch (taken when `bytesToWrite ≤ wiperStringBytes`) the
  source executes `wiperData += …` *before* `wiperData` is first assigned
  anywhere, so on a first iteration through this branch Python raises
  `NameError`; when `wiperData` is already defined, the `+=` result is then
  discarded by the unconditional `wiperData = list(wiperString[0:bytesToWrite])`
  of line 119, and `wiperStringStart` is not updated. -/
def wipeBodyData (bpp tb : Nat) (p : List Nat) (st : WipeState) :
    Except Err (List Nat × WipeState) :=
  let bytesToWrite := min bpp (tb - st.byteAddress)
  if p.length < bytesToWrite then
    if p.length = 0 then .error .zeroDivisionError
    else
      let partialBytes := bytesToWrite % p.length
      let completeStrings := (bytesToWrite - partialBytes) / p.length
      let s := st.wiperStringStart
      let base := (List.replicate completeStrings (p.drop s ++ p.take s)).flatten
      let e := s + partialBytes
      let data :=
        if p.length < e then base ++ (p.drop s ++ p.take (e - p.length))
        else base ++ pySlice p s e
      .ok (data, ⟨st.byteAddress + bytesToWrite, normStart (s + partialBytes) p.length,
                  some data⟩)
  else
    match st.pageData with
    | none => .error .nameError
    | some _ =>
      let data := p.take bytesToWrite
      .ok (data, ⟨st.byteAddress + bytesToWrite, st.wiperStringStart, some data⟩)

/-- One iteration of the data-generation part of the wipe script's verify
loop (`BusPirate_I2C_EEPROM_Wipe.py` lines 148–179 together with the
address increment of line 196), producing `verifyData`.  The source of
these lines is identical, token for token, to the wipe loop's lines 88–119
up to the renaming `bytesToWrite ↦ bytesToRead`, `wiperData ↦ verifyData`
(including the `verifyData += …`-before-assignment slip in the `else`
branch), so this definition repeats `wipeBodyData`. -/
def verifyBodyData (bpp tb : Nat) (p : List Nat) (st : WipeState) :
    Except Err (List Nat × WipeState) :=
  let bytesToWrite := min bpp (tb - st.byteAddress)
  if p.length < bytesToWrite then
    if p.length = 0 then .error .zeroDivisionError
    else
      let partialBytes := bytesToWrite % p.length
      let completeStrings := (bytesToWrite - partialBytes) / p.length
      let s := st.wiperStringStart
      let base := (List.replicate completeStrings (p.drop s ++ p.take s)).flatten
      let e := s + partialBytes
      let data :=
        if p.length < e then base ++ (p.drop s ++ p.take (e - p.length))
        else base ++ pySlice p s e
      .ok (data, ⟨st.byteAddress + bytesToWrite, normStart (s + partialBytes) p.length,
                  some data⟩)
  else
    match st.pageData with
    | none => .error .nameError
    | some _ =>
      let data := p.take bytesToWrite
      .ok (data, ⟨st.byteAddress + bytesToWrite, st.wiperStringStart, some data⟩)

/-- The wipe loop (`BusPirate_I2C_EEPROM_Wipe.py` lines 87–128): while
`byteAddress < totalBytes`, generate the page data and transmit
`txData = [WRITE_ADDRESS, (byteAddress >> 8) & 0xFF, byteAddress & 0xFF] + wiperData`.
Returns the list of transmitted `txData` transfers; `none` means the fuel
ran out before the loop finished. -/
def wipeRun (bpp tb : Nat) (p : List Nat) (w : Nat) :
    Nat → WipeState → Option (Except Err (List (List Nat)))
  | 0, st => if st.byteAddress < tb then none else some (.ok [])
  | fuel + 1, st =>
    if st.byteAddress < tb then
      match wipeBodyData bpp tb p st with
      | .error e => some (.error e)
      | .ok (data, st') =>
        match wipeRun bpp tb p w fuel st' with
        | none => none
        | some (.error e) => some (.error e)
        | some (.ok rest) => some (.ok ((w :: (wipeAddrBytes st.byteAddress ++ data)) :: rest))
    else some (.ok [])

/-- The expected-data generator of the verify loop: the sequence of
`verifyData` chunks the loop of lines 147–196 computes, one per page.  (The
computation of `verifyData` does not depend on the bytes read back from the
device; the read-back only feeds the comparison, which is modelled
separately in `verifyRun`.) -/
def verifyGenRun (bpp tb : Nat) (p : List Nat) :
    Nat → WipeState → Option (Except Err (List (List Nat)))
  | 0, st => if st.byteAddress < tb then none else some (.ok [])
  | fuel + 1, st =>
    if st.byteAddress < tb then
      match verifyBodyData bpp tb p st with
      | .error e => some (.error e)
      | .ok (data, st') =>
        match verifyGenRun bpp tb p fuel st' with
        | none => none
        | some (.error e) => some (.error e)
        | some (.ok rest) => some (.ok (data :: rest))
    else some (.ok [])

/-- The full verify loop (`BusPirate_I2C_EEPROM_Wipe.py` lines 147–199):
per iteration it computes `verifyData`, issues the sequential-read set-up
transfer `[WRITE_ADDRESS, (byteAddress >> 8) & 0xFF, byteAddress & 0xFF]`,
reads `bytesToRead` bytes back (the oracle `rx`), and compares; on a
mismatch it sets `verifyError` and breaks.  Returns the list of set-up
transfers issued together with the final `verifyError` flag. -/
def verifyRun (bpp tb : Nat) (p : List Nat) (w : Nat) (rx : Nat → Nat → List Nat) :
    Nat → WipeState → Option (Except Err (List (List Nat) × Bool))
  | 0, st => if st.byteAddress < tb then none else some (.ok ([], false))
  | fuel + 1, st =>
    if st.byteAddress < tb then
      match verifyBodyData bpp tb p st with
      | .error e => some (.error e)
      | .ok (data, st') =>
        if data ≠ rx st.byteAddress (min bpp (tb - st.byteAddress)) then
          some (.ok ([w :: wipeAddrBytes st.byteAddress], true))
        else
          match verifyRun bpp tb p w rx fuel st' with
          | none => none
          | some (.error e) => some (.error e)
          | some (.ok (sets, verr)) =>
            some (.ok ((w :: wipeAddrBytes st.byteAddress) :: sets, verr))
    else some (.ok ([], false))

/-- The wipe loop run from the script's initial state (`byteAddress = 0`,
`wiperStringStart = 0`, `wiperData` unassigned), with fuel `totalBytes`. -/
def wipeTxChunks (bpp tp : Nat) (p : List Nat) (w : Nat) :
    Option (Except Err (List (List Nat))) :=
  wipeRun bpp (bpp * tp) p w (bpp * tp) ⟨0, 0, none⟩

/-- The verify loop's expected-data generator run from the script's initial
state (`byteAddress = 0`, `wiperStringStart = 0`, `verifyData` unassigned),
with fuel `totalBytes`. -/
def verifyGenChunks (bpp tp : Nat) (p : List Nat) :
    Option (Except Err (List (List Nat))) :=
  verifyGenRun bpp (bpp * tp) p (bpp * tp) ⟨0, 0, none⟩

example : wipeTxChunks 2 2 [170, 187, 204] 160 = some (.error .nameError) := rfl

example : wipeTxChunks 4 1 [0] 160 = some (.ok [[160, 0, 0, 0, 0, 0, 0]]) := rfl

-- page 4, pattern 3: tiling across the page boundary
example : wipeTxChunks 4 2 [1, 2, 3] 160 =
    some (.ok [[160, 0, 0, 1, 2, 3, 1], [160, 0, 4, 2, 3, 1, 2]]) := rfl

/-- The full wipe script (`BusPirate_I2C_EEPROM_Wipe.py`): the I2C-address
check (line 47), the `totalBytes` 16-bit check (line 58), then the wipe
loop followed by the verify loop.  `p` is the already-parsed pattern
(`bytes.fromhex(args.hexString)`), `rx` the device read-back oracle.  The
outcome records the wipe loop's transfers, the verify loop's set-up
transfers and the final `verifyError` flag. -/
structure WipeOutcome where
  wipeTxs : List (List Nat)
  verifySets : List (List Nat)
  verifyError : Bool
deriving Repr, DecidableEq

def wipeScript (address bpp tp : Nat) (p : List Nat) (rx : Nat → Nat → List Nat) :
    Option (Except Err WipeOutcome) :=
  if 0x7F < address then some (.error .valueErrorAddress)
  else if 0xFFFF < bpp * tp then some (.error .valueErrorSize)
  else
    match wipeRun bpp (bpp * tp) p (writeAddressOf address) (bpp * tp) ⟨0, 0, none⟩ with
    | none => none
    | some (.error e) => some (.error e)
    | some (.ok txs) =>
      match verifyRun bpp (bpp * tp) p (writeAddressOf address) rx (bpp * tp) ⟨0, 0, none⟩ with
      | none => none
      | some (.error e) => some (.error e)
      | some (.ok (sets, verr)) => some (.ok ⟨txs, sets, verr⟩)

/-- The dump loop (`BusPirate_I2C_EEPROM_Dump.py` lines 110–129): while
`byteAddress < totalBytes`, set the read address, read
`rxCount = min(bytesPerPage, totalBytes - byteAddress)` bytes and append
them to the file, then advance `byteAddress` by `rxCount`.  The returned
list records each iteration's `(byteAddress, rxCount)` request; the bytes
written to the file are the read-back chunks for these requests, in order.
`none` means the fuel ran out before the loop finished. -/
def dumpLoop (bpp tb : Nat) : Nat → Nat → Option (List (Nat × Nat))
  | 0, a => if a < tb then none else some []
  | fuel + 1, a =>
    if a < tb then
      let c := min bpp (tb - a)
      (dumpLoop bpp tb fuel (a + c)).map (fun rest => (a, c) :: rest)
    else some []

/-- The dump script (`BusPirate_I2C_EEPROM_Dump.py`): the I2C-address check
(line 56) and the `totalBytes` 16-bit check (line 67), then the dump loop.
(The output-path checks of lines 72–88 concern the filesystem only and are
taken to pass.) -/
def dumpScript (address bpp tp : Nat) : Option (Except Err (List (Nat × Nat))) :=
  if 0x7F < address then some (.error .valueErrorAddress)
  else if 0xFFFF < bpp * tp then some (.error .valueErrorSize)
  else
    match dumpLoop bpp (bpp * tp) (bpp * tp) 0 with
    | none => none
    | some reqs => some (.ok reqs)

/-- The flash loop (`BusPirate_I2C_EEPROM_Flash.py` lines 102–119): while
`byteAddress < fileSize`, read `txCount = min(bytesPerPage, fileSize - byteAddress)`
bytes from the file (the file is read sequentially from position 0, so the
chunk is `file[byteAddress : byteAddress + txCount]`) and transmit
`txData = [WRITE_ADDRESS, (byteAddress >> 8) & 0xFF, byteAddress & 0xFF] + fileData`.
Records each iteration's `(byteAddress, txData)`. -/
def flashLoop (bpp : Nat) (file : List Nat) (w : Nat) :
    Nat → Nat → Option (List (Nat × List Nat))
  | 0, a => if a < file.length then none else some []
  | fuel + 1, a =>
    if a < file.length then
      let c := min bpp (file.length - a)
      let fileData := pySlice file a (a + c)
      let txData := w :: (flashAddrBytes a ++ fileData)
      (flashLoop bpp file w fuel (a + c)).map (fun rest => (a, txData) :: rest)
    else some []

/-- The flash script (`BusPirate_I2C_EEPROM_Flash.py`): the I2C-address
check (line 75), the `totalBytes` 16-bit check (line 86), the file-size
check `if fileSize > totalBytes: raise IndexError` (lines 102–103), then
the flash loop.  (The input-path existence checks of lines 91–96 concern
the filesystem only and are taken to pass.) -/
def flashScript (address bpp tp : Nat) (file : List Nat) :
    Option (Except Err (List (Nat × List Nat))) :=
  if 0x7F < address then some (.error .valueErrorAddress)
  else if 0xFFFF < bpp * tp then some (.error .valueErrorSize)
  else if bpp * tp < file.length then some (.error .indexError)
  else
    match flashLoop bpp file (writeAddressOf address) file.length 0 with
    | none => none
    | some txs => some (.ok txs)

/-- The blank-dump creator's write loop (`Blank_Dump_Creator.py` lines
84–95): while `byteAddress < totalBytes`, write
`dumpString[0 : min(dumpStringBytes, totalBytes - byteAddress)]` to the
file and advance by that many bytes.  Returns the file contents; `none`
means the fuel ran out (with an empty pattern the loop makes no progress,
so no fuel suffices). -/
def blankLoop (p : List Nat) (tb : Nat) : Nat → Nat → Option (List Nat)
  | 0, a => if a < tb then none else some []
  | fuel + 1, a =>
    if a < tb then
      let bytesToWrite := min p.length (tb - a)
      (blankLoop p tb fuel (a + bytesToWrite)).map (fun rest => p.take bytesToWrite ++ rest)
    else some []

/-- The blank-dump creator (`Blank_Dump_Creator.py`): the `totalBytes`
16-bit check (line 49), then the write loop.  `p` is the already-parsed
pattern (`bytes.fromhex(args.hexString)`, line 54).  (The output-path
checks of lines 58–74 concern the filesystem only and are taken to
pass.) -/
def blankScript (bpp tp : Nat) (p : List Nat) : Option (Except Err (List Nat)) :=
  if 0xFFFF < bpp * tp then some (.error .valueErrorSize)
  else
    match blankLoop p (bpp * tp) (bpp * tp) 0 with
    | none => none
    | some content => some (.ok content)

/-- `I2C_Address = (address >> 1) & 0b01111111`
(`BusPirate_I2C_EEPROM_Discovery.py` line 196). -/
def i2cAddrOf (a : Nat) : Nat := (a >>> 1) &&& 0x7F

/-- `readAddress = (I2C_Address << 1) | 0b00000001` (Discovery line 198). -/
def readAddrOf (a : Nat) : Nat := (i2cAddrOf a <<< 1) ||| 0x01

/-- `writeAddress = (I2C_Address << 1) & 0b11111110` (Discovery line 200). -/
def writeAddrOf (a : Nat) : Nat := (i2cAddrOf a <<< 1) &&& 0xFE

/-- The addresses probed by the discovery script's search loop
(`BusPirate_I2C_EEPROM_Discovery.py` line 172):
`range(1, MAXIMUM_I2C_ADDRESS + 1)` with `MAXIMUM_I2C_ADDRESS = 0xFF`,
i.e. `1, 2, …, 255` — the general-call address `0` is deliberately
skipped. -/
def scanAddresses : List Nat := List.range' 1 255

/-- The addresses that answered the probe with an ACK (lines 172–184): a
probe of `a` succeeds exactly when the oracle `responds a` is true, and the
successful ones are collected in scan order. -/
def foundAddresses (responds : Nat → Bool) : List Nat :=
  scanAddresses.filter responds

/-- One iteration of the discovery script's grouping loop (lines 194–209):
derive the I2C / read / write addresses from a responding address; if both
derived addresses responded, append the triple to the EEPROM table unless
it is already present, otherwise append the raw address to the unknown
list. -/
def groupStep (found : List Nat) (acc : List (Nat × Nat × Nat) × List Nat)
    (address : Nat) : List (Nat × Nat × Nat) × List Nat :=
  if readAddrOf address ∈ found ∧ writeAddrOf address ∈ found then
    if (i2cAddrOf address, readAddrOf address, writeAddrOf address) ∈ acc.1 then acc
    else (acc.1 ++ [(i2cAddrOf address, readAddrOf address, writeAddrOf address)], acc.2)
  else (acc.1, acc.2 ++ [address])

/-- The discovery script's grouping loop over all found addresses (lines
192–209), producing the reported EEPROM table and the unknown-address
list. -/
def groupAddresses (found : List Nat) : List (Nat × Nat × Nat) × List Nat :=
  found.foldl (groupStep found) ([], [])

/-- The pattern repeated cyclically and truncated to `n` bytes — the
specification-side description of the wipe and blank-dump contents
("the pattern repeated cyclically and truncated to `bytesPerPage * totalPages`
bytes").  `n` copies of the pattern always suffice for a non-empty
pattern. -/
def cyclicPattern (p : List Nat) (n : Nat) : List Nat :=
  ((List.replicate n p).flatten).take n

example : cyclicPattern [1, 2, 3] 8 = [1, 2, 3, 1, 2, 3, 1, 2] := rfl
example : blankScript 4 2 [1, 2, 3] = some (.ok [1, 2, 3, 1, 2, 3, 1, 2]) := rfl
example : blankScript 2 2 [] = none := rfl
example : dumpScript 80 4 2 = some (.ok [(0, 4), (4, 4)]) := rfl
example : flashScript 80 4 2 [9, 8, 7, 6, 5] =
    some (.ok [(0, [160, 0, 0, 9, 8, 7, 6]), (4, [160, 0, 4, 5])]) := rfl
example : flashScript 80 1 2 [9, 8, 7] = some (.error .indexError) := rfl

/-! ## Arithmetic helpers -/

theorem and_mask_255 (n : Nat) : n &&& 0xFF = n % 256 := by
  have h := Nat.and_pow_two_sub_one_eq_mod n 8
  norm_num at h
  exact h

theorem and_mask_127 (n : Nat) : n &&& 0x7F = n % 128 := by
  have h := Nat.and_pow_two_sub_one_eq_mod n 7
  norm_num at h
  exact h

theorem shiftRight_8 (n : Nat) : n >>> 8 = n / 256 := by
  have h := Nat.shiftRight_eq_div_pow n 8
  norm_num at h
  exact h

/-! ## C10: address-byte encodings of the dump, flash and wipe scripts -/

/-- **C10** (address-encoding agreement).  The dump script masks the high
address byte with `0x7F` while the flash and wipe scripts mask it with
`0xFF`.  Consequently, for every `byteAddress ≤ 0xFFFF`: the wipe and flash
scripts transmit identical address bytes; the dump script's two address
bytes equal the flash script's exactly when `byteAddress < 0x8000`; and for
`byteAddress ≥ 0x8000` the dump script's bytes are the encoding of
`byteAddress - 0x8000`. -/
theorem dump_flash_addr_agreement (a : Nat) (ha : a ≤ 0xFFFF) :
    wipeAddrBytes a = flashAddrBytes a ∧
    (dumpAddrBytes a = flashAddrBytes a ↔ a < 0x8000) ∧
    (0x8000 ≤ a → dumpAddrBytes a = flashAddrBytes (a - 0x8000)) := by
  refine ⟨rfl, ?_, ?_⟩
  · simp only [dumpAddrBytes, flashAddrBytes, and_mask_255, and_mask_127, shiftRight_8,
      List.cons.injEq, and_true]
    omega
  · intro h8
    simp only [dumpAddrBytes, flashAddrBytes, and_mask_255, and_mask_127, shiftRight_8,
      List.cons.injEq, and_true]
    omega

/-- Witness for C10 at the concrete address `0x9234`. -/
theorem dump_flash_addr_agreement_witness :
    wipeAddrBytes 0x9234 = flashAddrBytes 0x9234 ∧
    (dumpAddrBytes 0x9234 = flashAddrBytes 0x9234 ↔ 0x9234 < 0x8000) ∧
    (0x8000 ≤ 0x9234 → dumpAddrBytes 0x9234 = flashAddrBytes (0x9234 - 0x8000)) :=
  dump_flash_addr_agreement 0x9234 (by decide)

/-! ## C1: the wipe loop's pattern tiling crashes for small pages -/

/-- **C1** (wipe pattern tiling — failing case).  At `bytesPerPage = 2`,
`totalPages = 2` and the three-byte pattern `AA BB CC` (all within the
claim's preconditions: positive page size and page count, product
`4 ≤ 0xFFFF`, non-empty pattern), the claimed payload concatenation would
be the cyclic tiling `AA BB CC AA`; instead the wipe loop raises
`NameError` on its very first iteration — before any transfer — because
with `bytesToWrite ≤ wiperStringBytes` it takes the `else` branch, whose
first statement `wiperData += …` references `wiperData` before any
assignment to it. -/
theorem wipe_tiling_fails_for_small_pages :
    wipeTxChunks 2 2 [0xAA, 0xBB, 0xCC] (writeAddressOf 0x50) =
        some (.error .nameError) ∧
    cyclicPattern [0xAA, 0xBB, 0xCC] (2 * 2) = [0xAA, 0xBB, 0xCC, 0xAA] :=
  ⟨rfl, rfl⟩

/-! ## C2: the verify loop's expected data equals the wipe loop's payloads -/

/-- The verify loop's per-page data generation is the same code as the wipe
loop's, so the two body functions are literally the same function. -/
theorem verifyBodyData_eq_wipeBodyData : @verifyBodyData = @wipeBodyData := rfl

theorem drop_three_tx (w x : Nat) (d : List Nat) :
    (w :: (wipeAddrBytes x ++ d)).drop 3 = d := by
  simp [wipeAddrBytes]

theorem verifyGenRun_eq_wipeRun (bpp tb : Nat) (p : List Nat) (w : Nat) :
    ∀ fuel st, verifyGenRun bpp tb p fuel st =
      (wipeRun bpp tb p w fuel st).map (Except.map (List.map (List.drop 3))) := by
  intro fuel
  induction fuel with
  | zero =>
    intro st
    unfold verifyGenRun wipeRun
    split
    · rfl
    · rfl
  | succ fuel ih =>
    intro st
    unfold verifyGenRun wipeRun
    split
    · rw [verifyBodyData_eq_wipeBodyData]
      cases hb : wipeBodyData bpp tb p st with
      | error e => rfl
      | ok r =>
        obtain ⟨data, st'⟩ := r
        show (match verifyGenRun bpp tb p fuel st' with
          | none => none
          | some (Except.error e) => some (Except.error e)
          | some (Except.ok rest) => some (Except.ok (data :: rest))) = _
        rw [ih st']
        cases hrec : wipeRun bpp tb p w fuel st' with
        | none => simp [hrec]
        | some res =>
          cases res with
          | error e => simp [hrec, Except.map]
          | ok rest => simp [hrec, Except.map, wipeAddrBytes]
    · rfl

/-- **C2** (wipe/verify generator equivalence).  For every `bytesPerPage`,
`totalPages` and pattern, the sequence of expected-data chunks computed by
the verify loop equals, chunk for chunk, the data payloads (the bytes after
the write address and the two address bytes) of the transfers issued by the
wipe loop — including agreement on fuel exhaustion and on the error raised,
for any write address.  The verification pass therefore compares the
read-back against precisely what the wipe pass transmitted. -/
theorem verify_generator_eq_wipe_generator (bpp tp : Nat) (p : List Nat) (w : Nat) :
    verifyGenChunks bpp tp p =
      (wipeTxChunks bpp tp p w).map (Except.map (List.map (List.drop 3))) :=
  verifyGenRun_eq_wipeRun bpp (bpp * tp) p w (bpp * tp) ⟨0, 0, none⟩

/-! ## Cyclic-pattern lemmas for the blank-dump creator -/

theorem cyclicPattern_zero (p : List Nat) : cyclicPattern p 0 = [] := by
  simp [cyclicPattern]

theorem length_flatten_replicate (p : List Nat) (k : Nat) :
    ((List.replicate k p).flatten).length = k * p.length := by
  simp [List.length_flatten, List.map_replicate, List.sum_const_nat]

theorem take_flatten_replicate (p : List Nat) (hp : 0 < p.length) {k n : Nat}
    (hkn : k ≤ n) :
    ((List.replicate n p).flatten).take k = cyclicPattern p k := by
  unfold cyclicPattern
  rw [show n = k + (n - k) by omega, List.replicate_add, List.flatten_append,
    List.take_append_of_le_length]
  rw [length_flatten_replicate]
  exact Nat.le_mul_of_pos_right k hp

theorem cyclicPattern_step (p : List Nat) (hp : 0 < p.length) (m : Nat) (hm : 0 < m) :
    cyclicPattern p m = p.take (min p.length m) ++ cyclicPattern p (m - min p.length m) := by
  rcases le_or_lt p.length m with hLm | hml
  · rw [Nat.min_eq_left hLm]
    obtain ⟨m', rfl⟩ : ∃ m', m = m' + 1 := ⟨m - 1, by omega⟩
    conv_lhs => unfold cyclicPattern
    rw [List.replicate_succ, List.flatten_cons, List.take_append_eq_append_take,
      take_flatten_replicate p hp (show m' + 1 - p.length ≤ m' by omega),
      List.take_of_length_le (by omega : p.length ≤ m' + 1), List.take_length]
  · rw [Nat.min_eq_right (le_of_lt hml), Nat.sub_self, cyclicPattern_zero,
      List.append_nil]
    obtain ⟨m', rfl⟩ : ∃ m', m = m' + 1 := ⟨m - 1, by omega⟩
    unfold cyclicPattern
    rw [List.replicate_succ, List.flatten_cons, List.take_append_eq_append_take,
      show m' + 1 - p.length = 0 by omega, List.take_zero, List.append_nil]

theorem cyclicPattern_length (p : List Nat) (hp : 0 < p.length) (n : Nat) :
    (cyclicPattern p n).length = n := by
  unfold cyclicPattern
  rw [List.length_take, length_flatten_replicate]
  exact Nat.min_eq_left (Nat.le_mul_of_pos_right n hp)

/-- The blank-dump write loop, run with fuel at least `totalBytes - byteAddress`
and a non-empty pattern, terminates and writes exactly the cyclic tiling of
the pattern over the remaining bytes. -/
theorem blankLoop_eq (p : List Nat) (hp : 0 < p.length) (tb : Nat) :
    ∀ fuel a, tb - a ≤ fuel → blankLoop p tb fuel a = some (cyclicPattern p (tb - a)) := by
  intro fuel
  induction fuel with
  | zero =>
    intro a h
    unfold blankLoop
    rw [if_neg (by omega), show tb - a = 0 by omega, cyclicPattern_zero]
  | succ fuel ih =>
    intro a h
    unfold blankLoop
    by_cases hab : a < tb
    · rw [if_pos hab]
      have hrec := ih (a + min p.length (tb - a)) (by omega)
      simp only [hrec, Option.map_some']
      rw [cyclicPattern_step p hp (tb - a) (by omega),
        show tb - (a + min p.length (tb - a)) = tb - a - min p.length (tb - a) by omega]
    · rw [if_neg hab, show tb - a = 0 by omega, cyclicPattern_zero]

/-- With an empty pattern and a non-empty address range, the blank-dump
write loop makes no progress: no amount of fuel completes it. -/
theorem blankLoop_nil (tb : Nat) (htb : 0 < tb) :
    ∀ fuel, blankLoop [] tb fuel 0 = none := by
  intro fuel
  induction fuel with
  | zero => simp [blankLoop, htb]
  | succ fuel ih => simp [blankLoop, htb, ih]

/-- **C5** (blank-dump content).  For positive `bytesPerPage` and
`totalPages` with `bytesPerPage * totalPages ≤ 0xFFFF` and a non-empty
pattern, the blank-dump creator terminates and writes a file of exactly
`bytesPerPage * totalPages` bytes whose content is the pattern repeated
cyclically and truncated to that length. -/
theorem blank_dump_content (bpp tp : Nat) (p : List Nat) (hbpp : 0 < bpp)
    (htp : 0 < tp) (hp : p ≠ []) (hsz : bpp * tp ≤ 0xFFFF) :
    blankScript bpp tp p = some (.ok (cyclicPattern p (bpp * tp))) ∧
    (cyclicPattern p (bpp * tp)).length = bpp * tp := by
  have hp' : 0 < p.length := List.length_pos.mpr hp
  constructor
  · unfold blankScript
    rw [if_neg (by omega)]
    rw [blankLoop_eq p hp' (bpp * tp) (bpp * tp) 0 (by omega), Nat.sub_zero]
  · exact cyclicPattern_length p hp' (bpp * tp)

/-- Witness for C5: `bytesPerPage = 4`, `totalPages = 2`, pattern `01 02 03`. -/
theorem blank_dump_content_witness :
    blankScript 4 2 [1, 2, 3] = some (.ok (cyclicPattern [1, 2, 3] (4 * 2))) ∧
    (cyclicPattern [1, 2, 3] (4 * 2)).length = 4 * 2 :=
  blank_dump_content 4 2 [1, 2, 3] (by decide) (by decide) (by decide) (by decide)

/-! ## C3: the dump loop partitions the address range -/

/-- The dump loop, run with fuel at least `totalBytes - byteAddress` and a
positive page size, terminates; its requests cover the remaining address
range in increasing order without gap or overlap, and every request size
is `min bytesPerPage (totalBytes - byteAddress)`. -/
theorem dumpLoop_spec (bpp tb : Nat) (hbpp : 0 < bpp) :
    ∀ fuel a, tb - a ≤ fuel →
      ∃ reqs, dumpLoop bpp tb fuel a = some reqs ∧
        (reqs.map (fun r => List.range' r.1 r.2)).flatten = List.range' a (tb - a) ∧
        ∀ r ∈ reqs, r.2 = min bpp (tb - r.1) := by
  intro fuel
  induction fuel with
  | zero =>
    intro a h
    refine ⟨[], ?_, ?_, by simp⟩
    · unfold dumpLoop
      rw [if_neg (by omega)]
    · rw [show tb - a = 0 by omega]
      simp
  | succ fuel ih =>
    intro a h
    by_cases hab : a < tb
    · obtain ⟨reqs, hr, hflat, hsz⟩ := ih (a + min bpp (tb - a)) (by omega)
      refine ⟨(a, min bpp (tb - a)) :: reqs, ?_, ?_, ?_⟩
      · unfold dumpLoop
        rw [if_pos hab]
        simp only [hr, Option.map_some']
      · simp only [List.map_cons, List.flatten_cons, hflat,
          show tb - (a + min bpp (tb - a)) = tb - a - min bpp (tb - a) by omega,
          List.range'_append_1]
        rw [show tb - a - min bpp (tb - a) + min bpp (tb - a) = tb - a by omega]
      · intro r hr'
        rcases List.mem_cons.mp hr' with rfl | hr'
        · rfl
        · exact hsz r hr'
    · refine ⟨[], ?_, ?_, by simp⟩
      · unfold dumpLoop
        rw [if_neg hab]
      · rw [show tb - a = 0 by omega]
        simp

/-- **C3** (dump coverage).  For a valid I2C address, positive
`bytesPerPage` and `totalPages` with product at most `0xFFFF`, and a device
whose sequential reads return exactly the requested number of bytes, the
dump script terminates and: the file receives exactly
`bytesPerPage * totalPages` bytes (the concatenation, in order, of the
per-request read-backs); the requested chunks partition the address range
`[0, totalBytes)` in increasing order with no gap and no overlap; and every
request reads `min bytesPerPage (totalBytes - byteAddress)` bytes. -/
theorem dump_coverage (address bpp tp : Nat) (rx : Nat → Nat → List Nat)
    (haddr : address ≤ 0x7F) (hbpp : 0 < bpp) (htp : 0 < tp)
    (hsz : bpp * tp ≤ 0xFFFF) (hrx : ∀ a c, (rx a c).length = c) :
    ∃ reqs, dumpScript address bpp tp = some (.ok reqs) ∧
      ((reqs.map (fun r => rx r.1 r.2)).flatten).length = bpp * tp ∧
      (reqs.map (fun r => List.range' r.1 r.2)).flatten = List.range (bpp * tp) ∧
      ∀ r ∈ reqs, r.2 = min bpp (bpp * tp - r.1) := by
  obtain ⟨reqs, hr, hflat, hmin⟩ :=
    dumpLoop_spec bpp (bpp * tp) hbpp (bpp * tp) 0 (by omega)
  rw [Nat.sub_zero] at hflat
  refine ⟨reqs, ?_, ?_, ?_, hmin⟩
  · unfold dumpScript
    rw [if_neg (by omega), if_neg (by omega), hr]
  · have hlen : ((reqs.map (fun r => List.range' r.1 r.2)).flatten).length = bpp * tp := by
      rw [hflat, List.length_range']
    rw [List.length_flatten, List.map_map] at hlen ⊢
    rw [show (List.length ∘ fun r => rx r.1 r.2) = fun r : Nat × Nat => r.2 from
      funext fun r => hrx r.1 r.2]
    rw [show (List.length ∘ fun r : Nat × Nat => List.range' r.1 r.2) =
        fun r : Nat × Nat => r.2 from funext fun r => by simp] at hlen
    exact hlen
  · rw [hflat, List.range_eq_range']

/-- Witness for C3 at `address = 0x50`, `bytesPerPage = 4`, `totalPages = 2`
and a device that answers every read with zeros. -/
theorem dump_coverage_witness :
    ∃ reqs, dumpScript 0x50 4 2 = some (.ok reqs) ∧
      ((reqs.map (fun r => List.replicate r.2 0)).flatten).length = 4 * 2 ∧
      (reqs.map (fun r => List.range' r.1 r.2)).flatten = List.range (4 * 2) ∧
      ∀ r ∈ reqs, r.2 = min 4 (4 * 2 - r.1) :=
  dump_coverage 0x50 4 2 (fun _ c => List.replicate c 0) (by decide) (by decide)
    (by decide) (by decide) (fun _ c => List.length_replicate c 0)

/-! ## C4: the flash loop transmits the file exactly once, in order -/

theorem pySlice_append_drop (l : List Nat) (a m : Nat) (ham : a ≤ m) :
    pySlice l a m ++ l.drop m = l.drop a := by
  unfold pySlice
  rw [List.drop_take, show m = a + (m - a) by omega, ← List.drop_drop,
    Nat.add_sub_cancel_left, List.take_append_drop]

theorem pySlice_length (l : List Nat) (a m : Nat) (ham : a ≤ m)
    (hm : m ≤ l.length) : (pySlice l a m).length = m - a := by
  unfold pySlice
  rw [List.length_drop, List.length_take]
  omega

theorem flash_drop_three (w x : Nat) (d : List Nat) :
    (w :: (flashAddrBytes x ++ d)).drop 3 = d := by
  simp [flashAddrBytes]

/-- The flash loop, run with fuel at least `fileSize - byteAddress` and a
positive page size: it terminates, the data portions of its transfers
concatenate to the remaining file contents, and every transfer is the write
address followed by the big-endian address bytes and the
`min bytesPerPage (fileSize - byteAddress)`-byte file chunk at its
address. -/
theorem flashLoop_spec (bpp : Nat) (file : List Nat) (w : Nat) (hbpp : 0 < bpp) :
    ∀ fuel a, file.length - a ≤ fuel →
      ∃ txs, flashLoop bpp file w fuel a = some txs ∧
        (txs.map (fun r => r.2.drop 3)).flatten = file.drop a ∧
        (∀ r ∈ txs, r.2 = w :: (flashAddrBytes r.1 ++
            pySlice file r.1 (r.1 + min bpp (file.length - r.1)))) ∧
        (∀ r ∈ txs, (r.2.drop 3).length = min bpp (file.length - r.1)) := by
  intro fuel
  induction fuel with
  | zero =>
    intro a h
    refine ⟨[], ?_, ?_, by simp, by simp⟩
    · unfold flashLoop
      rw [if_neg (by omega)]
    · rw [List.drop_eq_nil_of_le (by omega)]
      simp
  | succ fuel ih =>
    intro a h
    by_cases hab : a < file.length
    · obtain ⟨txs, htx, hflat, hstruct, hlen⟩ :=
        ih (a + min bpp (file.length - a)) (by omega)
      refine ⟨(a, w :: (flashAddrBytes a ++ pySlice file a (a + min bpp (file.length - a))))
          :: txs, ?_, ?_, ?_, ?_⟩
      · unfold flashLoop
        rw [if_pos hab]
        simp only [htx, Option.map_some']
      · simp only [List.map_cons, List.flatten_cons, hflat, flash_drop_three]
        exact pySlice_append_drop file a (a + min bpp (file.length - a)) (by omega)
      · intro r hr'
        rcases List.mem_cons.mp hr' with rfl | hr'
        · rfl
        · exact hstruct r hr'
      · intro r hr'
        rcases List.mem_cons.mp hr' with rfl | hr'
        · rw [flash_drop_three, pySlice_length file a _ (by omega) (by omega)]
          omega
        · exact hlen r hr'
    · refine ⟨[], ?_, ?_, by simp, by simp⟩
      · unfold flashLoop
        rw [if_neg hab]
      · rw [List.drop_eq_nil_of_le (by omega)]
        simp

/-- **C4** (flash fidelity).  For a valid I2C address and
`bytesPerPage * totalPages ≤ 0xFFFF`: when the input file fits
(`fileSize ≤ bytesPerPage * totalPages`), the flash script terminates and
transmits the file's bytes exactly once and in order — the concatenation of
the data portions (everything after the write address and the two
big-endian address bytes) of its transfers equals the file contents, and
each transfer at `byteAddress` is the write address, the two address bytes,
and the `min bytesPerPage (fileSize - byteAddress)`-byte chunk of the file
at that address.  When the file does not fit, the script raises
`IndexError` before any device transfer. -/
theorem flash_fidelity (address bpp tp : Nat) (file : List Nat)
    (haddr : address ≤ 0x7F) (hsz : bpp * tp ≤ 0xFFFF) :
    (file.length ≤ bpp * tp →
      ∃ txs, flashScript address bpp tp file = some (.ok txs) ∧
        (txs.map (fun r => r.2.drop 3)).flatten = file ∧
        (∀ r ∈ txs, r.2 = writeAddressOf address :: (flashAddrBytes r.1 ++
            pySlice file r.1 (r.1 + min bpp (file.length - r.1)))) ∧
        (∀ r ∈ txs, (r.2.drop 3).length = min bpp (file.length - r.1))) ∧
    (bpp * tp < file.length →
      flashScript address bpp tp file = some (.error .indexError)) := by
  constructor
  · intro hfit
    rcases Nat.eq_zero_or_pos file.length with hlen0 | hlenpos
    · have hfile : file = [] := List.length_eq_zero.mp hlen0
      subst hfile
      refine ⟨[], ?_, by simp, by simp, by simp⟩
      unfold flashScript
      rw [if_neg (by omega), if_neg (by omega), if_neg (by simp)]
      rfl
    · have hbpp : 0 < bpp := by
        by_contra h0
        have hb0 : bpp = 0 := by omega
        subst hb0
        rw [Nat.zero_mul] at hfit
        omega
      obtain ⟨txs, htx, hflat, hstruct, hsizes⟩ :=
        flashLoop_spec bpp file (writeAddressOf address) hbpp file.length 0 (by omega)
      refine ⟨txs, ?_, ?_, hstruct, hsizes⟩
      · unfold flashScript
        rw [if_neg (by omega), if_neg (by omega), if_neg (by omega), htx]
      · rw [hflat, List.drop_zero]
  · intro hbig
    unfold flashScript
    rw [if_neg (by omega), if_neg (by omega), if_pos hbig]

/-- Witness for C4 at `address = 0x50`, `bytesPerPage = 4`, `totalPages = 2`
and the five-byte file `09 08 07 06 05`. -/
theorem flash_fidelity_witness :
    ((([9, 8, 7, 6, 5] : List Nat).length ≤ 4 * 2 →
      ∃ txs, flashScript 0x50 4 2 [9, 8, 7, 6, 5] = some (.ok txs) ∧
        (txs.map (fun r => r.2.drop 3)).flatten = [9, 8, 7, 6, 5] ∧
        (∀ r ∈ txs, r.2 = writeAddressOf 0x50 :: (flashAddrBytes r.1 ++
            pySlice [9, 8, 7, 6, 5] r.1
              (r.1 + min 4 (([9, 8, 7, 6, 5] : List Nat).length - r.1)))) ∧
        (∀ r ∈ txs, (r.2.drop 3).length =
            min 4 (([9, 8, 7, 6, 5] : List Nat).length - r.1))) ∧
    (4 * 2 < ([9, 8, 7, 6, 5] : List Nat).length →
      flashScript 0x50 4 2 [9, 8, 7, 6, 5] = some (.error .indexError))) :=
  flash_fidelity 0x50 4 2 [9, 8, 7, 6, 5] (by decide) (by decide)

/-! ## C9: loop termination -/

/-- **C9** (loop termination).  The dump and flash page loops terminate for
positive `bytesPerPage` (they consume at least one byte per iteration,
bounded by `totalBytes` resp. `fileSize`, so fuel equal to that bound
suffices).  The blank-dump write loop terminates whenever the pattern is
non-empty; with an empty pattern and a positive byte count it makes no
progress — `bytesToWrite = min(0, remaining) = 0` on every iteration — and
no amount of fuel completes it. -/
theorem loop_termination :
    (∀ bpp tp : Nat, 0 < bpp → 0 < tp →
      ∃ reqs, dumpLoop bpp (bpp * tp) (bpp * tp) 0 = some reqs) ∧
    (∀ (bpp w : Nat) (file : List Nat), 0 < bpp →
      ∃ txs, flashLoop bpp file w file.length 0 = some txs) ∧
    (∀ (bpp tp : Nat) (p : List Nat), p ≠ [] →
      ∃ content, blankLoop p (bpp * tp) (bpp * tp) 0 = some content) ∧
    (∀ bpp tp : Nat, 0 < bpp * tp → ∀ fuel, blankLoop [] (bpp * tp) fuel 0 = none) := by
  refine ⟨?_, ?_, ?_, ?_⟩
  · intro bpp tp hbpp htp
    obtain ⟨reqs, hr, -, -⟩ := dumpLoop_spec bpp (bpp * tp) hbpp (bpp * tp) 0 (by omega)
    exact ⟨reqs, hr⟩
  · intro bpp w file hbpp
    obtain ⟨txs, htx, -, -, -⟩ := flashLoop_spec bpp file w hbpp file.length 0 (by omega)
    exact ⟨txs, htx⟩
  · intro bpp tp p hp
    exact ⟨cyclicPattern p (bpp * tp - 0),
      blankLoop_eq p (List.length_pos.mpr hp) (bpp * tp) (bpp * tp) 0 (by omega)⟩
  · intro bpp tp htb fuel
    exact blankLoop_nil (bpp * tp) htb fuel

/-- Witness for C9 at `bytesPerPage = 2`, `totalPages = 3`, the two-byte
file `05 06`, the pattern `01`, and the empty pattern. -/
theorem loop_termination_witness :
    (∃ reqs, dumpLoop 2 (2 * 3) (2 * 3) 0 = some reqs) ∧
    (∃ txs, flashLoop 2 [5, 6] 160 ([5, 6] : List Nat).length 0 = some txs) ∧
    (∃ content, blankLoop [1] (2 * 3) (2 * 3) 0 = some content) ∧
    (∀ fuel, blankLoop [] (2 * 3) fuel 0 = none) :=
  ⟨loop_termination.1 2 3 (by decide) (by decide),
   loop_termination.2.1 2 160 [5, 6] (by decide),
   loop_termination.2.2.1 2 3 [1] (by decide),
   loop_termination.2.2.2 2 3 (by decide)⟩

/-! ## C6: the 16-bit size check -/

theorem wipeBodyData_error (bpp tb : Nat) (p : List Nat) (st : WipeState) (e : Err)
    (h : wipeBodyData bpp tb p st = .error e) :
    e = Err.nameError ∨ e = Err.zeroDivisionError := by
  simp only [wipeBodyData] at h
  split at h
  · split at h
    · injection h with h
      exact Or.inr h.symm
    · simp at h
  · split at h
    · injection h with h
      exact Or.inl h.symm
    · simp at h

theorem wipeRun_error (bpp tb : Nat) (p : List Nat) (w : Nat) :
    ∀ fuel st e, wipeRun bpp tb p w fuel st = some (.error e) →
      e = Err.nameError ∨ e = Err.zeroDivisionError := by
  intro fuel
  induction fuel with
  | zero =>
    intro st e h
    unfold wipeRun at h
    split at h <;> simp at h
  | succ fuel ih =>
    intro st e h
    unfold wipeRun at h
    split at h
    · split at h
      · rename_i eb heq
        simp only [Option.some.injEq, Except.error.injEq] at h
        exact h ▸ wipeBodyData_error bpp tb p st eb heq
      · rename_i r heq
        split at h
        · simp at h
        · rename_i e2 heq2
          simp only [Option.some.injEq, Except.error.injEq] at h
          exact h ▸ ih _ e2 heq2
        · simp at h
    · simp at h

theorem verifyRunError (bpp tb : Nat) (p : List Nat) (w : Nat)
    (rx : Nat → Nat → List Nat) :
    ∀ fuel st e, verifyRun bpp tb p w rx fuel st = some (.error e) →
      e = Err.nameError ∨ e = Err.zeroDivisionError := by
  intro fuel
  induction fuel with
  | zero =>
    intro st e h
    unfold verifyRun at h
    split at h <;> simp at h
  | succ fuel ih =>
    intro st e h
    unfold verifyRun at h
    split at h
    · split at h
      · rename_i eb heq
        simp only [Option.some.injEq, Except.error.injEq] at h
        rw [verifyBodyData_eq_wipeBodyData] at heq
        exact h ▸ wipeBodyData_error bpp tb p st eb heq
      · rename_i r heq
        split at h
        · simp at h
        · split at h
          · simp at h
          · rename_i e2 heq2
            simp only [Option.some.injEq, Except.error.injEq] at h
            exact h ▸ ih _ e2 heq2
          · simp at h
    · simp at h

/-- **C6** (16-bit size limit).  In each of the blank-dump, dump, flash and
wipe script models (with a valid I2C address where one is taken), the
size `ValueError` is the result exactly when
`bytesPerPage * totalPages > 0xFFFF`; the check sits before the write/
transfer loop, so nothing is written or transmitted in that case, and when
the product is `0xFFFF` or less the script proceeds past validation
(whatever it then returns is not the size `ValueError`). -/
theorem sixteen_bit_size_limit (address bpp tp : Nat) (p file : List Nat)
    (rx : Nat → Nat → List Nat) (haddr : address ≤ 0x7F) :
    ((blankScript bpp tp p = some (.error .valueErrorSize)) ↔ 0xFFFF < bpp * tp) ∧
    ((dumpScript address bpp tp = some (.error .valueErrorSize)) ↔ 0xFFFF < bpp * tp) ∧
    ((flashScript address bpp tp file = some (.error .valueErrorSize)) ↔ 0xFFFF < bpp * tp) ∧
    ((wipeScript address bpp tp p rx = some (.error .valueErrorSize)) ↔ 0xFFFF < bpp * tp) := by
  have haddr' : ¬ 0x7F < address := by omega
  refine ⟨⟨?_, ?_⟩, ⟨?_, ?_⟩, ⟨?_, ?_⟩, ⟨?_, ?_⟩⟩
  · intro h
    by_contra hsz
    unfold blankScript at h
    rw [if_neg hsz] at h
    split at h <;> simp at h
  · intro h
    unfold blankScript
    rw [if_pos h]
  · intro h
    by_contra hsz
    unfold dumpScript at h
    rw [if_neg haddr', if_neg hsz] at h
    split at h <;> simp at h
  · intro h
    unfold dumpScript
    rw [if_neg haddr', if_pos h]
  · intro h
    by_contra hsz
    unfold flashScript at h
    rw [if_neg haddr', if_neg hsz] at h
    by_cases hidx : bpp * tp < file.length
    · rw [if_pos hidx] at h
      simp at h
    · rw [if_neg hidx] at h
      split at h <;> simp at h
  · intro h
    unfold flashScript
    rw [if_neg haddr', if_pos h]
  · intro h
    by_contra hsz
    unfold wipeScript at h
    rw [if_neg haddr', if_neg hsz] at h
    split at h
    · simp at h
    · rename_i e heq
      simp only [Option.some.injEq, Except.error.injEq] at h
      rcases wipeRun_error bpp (bpp * tp) p (writeAddressOf address) _ _ e heq with h2 | h2 <;>
        simp [h2] at h
    · split at h
      · simp at h
      · rename_i e heq
        simp only [Option.some.injEq, Except.error.injEq] at h
        rcases verifyRunError bpp (bpp * tp) p (writeAddressOf address) rx _ _ e heq with h2 | h2 <;>
          simp [h2] at h
      · simp at h
  · intro h
    unfold wipeScript
    rw [if_neg haddr', if_pos h]

/-- Witness for C6 at `address = 0x50`, `bytesPerPage = 256`,
`totalPages = 256` (product `65536 > 0xFFFF`), empty pattern and file, and
an all-zero device. -/
theorem sixteen_bit_size_limit_witness :
    ((blankScript 256 256 [] = some (.error .valueErrorSize)) ↔ 0xFFFF < 256 * 256) ∧
    ((dumpScript 0x50 256 256 = some (.error .valueErrorSize)) ↔ 0xFFFF < 256 * 256) ∧
    ((flashScript 0x50 256 256 [] = some (.error .valueErrorSize)) ↔ 0xFFFF < 256 * 256) ∧
    ((wipeScript 0x50 256 256 [] (fun _ c => List.replicate c 0) =
        some (.error .valueErrorSize)) ↔ 0xFFFF < 256 * 256) :=
  sixteen_bit_size_limit 0x50 256 256 [] [] (fun _ c => List.replicate c 0) (by decide)

/-! ## C7: the wipe script's verification pass is not optional -/

theorem wipeRun_ok_nonempty_tb {bpp tb : Nat} {p : List Nat} {w fuel : Nat}
    {txs : List (List Nat)}
    (h : wipeRun bpp tb p w fuel ⟨0, 0, none⟩ = some (.ok txs)) (htxs : txs ≠ []) :
    0 < tb := by
  by_contra htb
  have htb0 : tb = 0 := by omega
  subst htb0
  cases fuel with
  | zero =>
    unfold wipeRun at h
    rw [if_neg (by omega)] at h
    simp only [Option.some.injEq, Except.ok.injEq] at h
    exact htxs h.symm
  | succ fuel =>
    unfold wipeRun at h
    rw [if_neg (by omega)] at h
    simp only [Option.some.injEq, Except.ok.injEq] at h
    exact htxs h.symm

theorem verifyRun_ok_sets_nonempty {bpp tb : Nat} {p : List Nat} {w fuel : Nat}
    {rx : Nat → Nat → List Nat} {sets : List (List Nat)} {verr : Bool}
    (htb : 0 < tb)
    (h : verifyRun bpp tb p w rx fuel ⟨0, 0, none⟩ = some (.ok (sets, verr))) :
    sets ≠ [] := by
  cases fuel with
  | zero =>
    unfold verifyRun at h
    rw [if_pos htb] at h
    simp at h
  | succ fuel =>
    unfold verifyRun at h
    rw [if_pos htb] at h
    split at h
    · simp at h
    · split at h
      · simp only [Option.some.injEq, Except.ok.injEq, Prod.mk.injEq] at h
        obtain ⟨h1, -⟩ := h
        rw [← h1]
        simp
      · split at h
        · simp at h
        · simp at h
        · simp only [Option.some.injEq, Except.ok.injEq, Prod.mk.injEq] at h
          obtain ⟨h1, -⟩ := h
          rw [← h1]
          simp

/-- Whenever the wipe script model completes and has actually transmitted at
least one page write, its verification pass has issued at least one
read-back: no setting of the command-line flags skips it. -/
theorem wipe_verify_always (address bpp tp : Nat) (p : List Nat)
    (rx : Nat → Nat → List Nat) (out : WipeOutcome)
    (h : wipeScript address bpp tp p rx = some (.ok out)) (hw : out.wipeTxs ≠ []) :
    out.verifySets ≠ [] := by
  unfold wipeScript at h
  split at h
  · simp at h
  · split at h
    · simp at h
    · split at h
      · simp at h
      · simp at h
      · rename_i txs heqW
        split at h
        · simp at h
        · simp at h
        · rename_i res sets verr heqV
          simp only [Option.some.injEq, Except.ok.injEq] at h
          subst h
          have htb : 0 < bpp * tp := wipeRun_ok_nonempty_tb heqW hw
          exact verifyRun_ok_sets_nonempty htb heqV

/-- **C7** — the claim as stated is false: there is no flag setting of the
wipe script under which the EEPROM is wiped (at least one page write
transmitted) but the verification pass is not performed.  The argument
parser of `BusPirate_I2C_EEPROM_Wipe.py` (lines 32–39) has no flag that
conditions the verify loop, which follows the wipe loop unconditionally. -/
theorem wipe_verification_not_skippable :
    ¬ ∃ (address bpp tp : Nat) (p : List Nat) (rx : Nat → Nat → List Nat)
        (out : WipeOutcome),
        wipeScript address bpp tp p rx = some (.ok out) ∧
        out.wipeTxs ≠ [] ∧ out.verifySets = [] := by
  rintro ⟨address, bpp, tp, p, rx, out, hok, hw, hv⟩
  exact wipe_verify_always address bpp tp p rx out hok hw hv

/-- **C7 (amended)**.  The wipe script's read-back verification is not
optional: under every setting of the command-line flags, if the script
completes after transmitting at least one page write, the verification pass
has performed at least one read-back. -/
theorem wipe_verification_always_runs :
    ∀ (address bpp tp : Nat) (p : List Nat) (rx : Nat → Nat → List Nat)
      (out : WipeOutcome),
      wipeScript address bpp tp p rx = some (.ok out) → out.wipeTxs ≠ [] →
      out.verifySets ≠ [] :=
  wipe_verify_always

/-- Witness for the amended C7 at `address = 0x50`, `bytesPerPage = 4`,
`totalPages = 1`, pattern `00` and an all-zero device. -/
theorem wipe_verification_always_runs_witness :
    ({ wipeTxs := [[160, 0, 0, 0, 0, 0, 0]], verifySets := [[160, 0, 0]],
       verifyError := false } : WipeOutcome).verifySets ≠ [] :=
  wipe_verification_always_runs 0x50 4 1 [0] (fun _ c => List.replicate c 0) _
    (by rfl) (by simp)

/-! ## C8: the discovery scan and the reported EEPROM table -/

theorem groupTable_mem (found : List Nat) :
    ∀ (l : List Nat) (acc : List (Nat × Nat × Nat) × List Nat) (t : Nat × Nat × Nat),
      t ∈ (l.foldl (groupStep found) acc).1 ↔
        t ∈ acc.1 ∨ ∃ a, a ∈ l ∧ readAddrOf a ∈ found ∧ writeAddrOf a ∈ found ∧
          t = (i2cAddrOf a, readAddrOf a, writeAddrOf a) := by
  intro l
  induction l with
  | nil => simp
  | cons a l ih =>
    intro acc t
    rw [List.foldl_cons, ih]
    constructor
    · rintro (hacc | ⟨b, hb, hrb, hwb, rfl⟩)
      · unfold groupStep at hacc
        split at hacc
        · rename_i hgood
          split at hacc
          · exact Or.inl hacc
          · rcases List.mem_append.mp hacc with hacc | hacc
            · exact Or.inl hacc
            · refine Or.inr ⟨a, List.mem_cons_self a l, hgood.1, hgood.2, ?_⟩
              simpa using hacc
        · exact Or.inl hacc
      · exact Or.inr ⟨b, List.mem_cons_of_mem a hb, hrb, hwb, rfl⟩
    · rintro (hacc | ⟨b, hb, hrb, hwb, rfl⟩)
      · left
        unfold groupStep
        split
        · split
          · exact hacc
          · exact List.mem_append_left _ hacc
        · exact hacc
      · rcases List.mem_cons.mp hb with rfl | hb
        · left
          unfold groupStep
          rw [if_pos ⟨hrb, hwb⟩]
          split
          · rename_i hmem
            exact hmem
          · exact List.mem_append_right _ (by simp)
        · exact Or.inr ⟨b, hb, hrb, hwb, rfl⟩

theorem groupTable_nodup (found : List Nat) :
    ∀ (l : List Nat) (acc : List (Nat × Nat × Nat) × List Nat),
      acc.1.Nodup → ((l.foldl (groupStep found) acc).1).Nodup := by
  intro l
  induction l with
  | nil => intro acc h; simpa using h
  | cons a l ih =>
    intro acc h
    rw [List.foldl_cons]
    apply ih
    unfold groupStep
    split
    · split
      · exact h
      · rename_i hmem
        simp only
        rw [List.nodup_append]
        exact ⟨h, List.nodup_singleton _, by simpa using hmem⟩
    · exact h

set_option maxRecDepth 4096 in
theorem found_formulas :
    ∀ a < 256, readAddrOf a = ((a >>> 1) <<< 1) ||| 0x01 ∧
      writeAddrOf a = (a >>> 1) <<< 1 := by
  decide

/-- **C8** (discovery scan).  The probe loop visits exactly the addresses
`1, …, 255`, each once, and never the general-call address `0`.  On the
found addresses the code's read/write-address derivations agree with the
claim's formulas `((addr >> 1) << 1) | 1` and `(addr >> 1) << 1`.  A triple
appears in the reported EEPROM table exactly when it is derived from some
responding address whose derived read and write addresses both responded,
and no triple appears twice. -/
theorem discovery_scan (responds : Nat → Bool) :
    (∀ a, a ∈ scanAddresses ↔ 1 ≤ a ∧ a ≤ 255) ∧
    scanAddresses.Nodup ∧
    (∀ a ∈ foundAddresses responds,
      readAddrOf a = ((a >>> 1) <<< 1) ||| 0x01 ∧ writeAddrOf a = (a >>> 1) <<< 1) ∧
    (∀ t, t ∈ (groupAddresses (foundAddresses responds)).1 ↔
      ∃ a, a ∈ foundAddresses responds ∧
        readAddrOf a ∈ foundAddresses responds ∧
        writeAddrOf a ∈ foundAddresses responds ∧
        t = (i2cAddrOf a, readAddrOf a, writeAddrOf a)) ∧
    (groupAddresses (foundAddresses responds)).1.Nodup := by
  refine ⟨?_, ?_, ?_, ?_, ?_⟩
  · intro a
    unfold scanAddresses
    rw [List.mem_range'_1]
    omega
  · exact List.nodup_range' 1 255
  · intro a ha
    have ha' : a ∈ scanAddresses := (List.mem_filter.mp ha).1
    have hb : a < 256 := by
      have := (List.mem_range'_1.mp ha')
      omega
    exact found_formulas a hb
  · intro t
    unfold groupAddresses
    rw [groupTable_mem (foundAddresses responds) (foundAddresses responds) ([], []) t]
    simp
  · exact groupTable_nodup (foundAddresses responds) (foundAddresses responds) ([], [])
      (by simp)
